import Mathlib

/-!
Verification of `scripts/extract_firebase_schema.py`.

The script is a one-shot schema-extraction tool for a Firebase Realtime
Database: it fetches the whole JSON tree over HTTP, aggregates key sets and
record counts level by level (`extract_complete_schema`), builds a detailed
recursive schema (`build_detailed_schema`), and prints or saves the result.

Embedding conventions:
- JSON values are modelled by the inductive `JValue`; Python dicts become
  association lists in insertion order (Python 3.7+ dicts preserve insertion
  order, and dict keys are always pairwise distinct).
- Python sets are modelled as duplicate-free lists in insertion order
  (`insertSet`); only their membership, cardinality and sorted image are
  observed by the script, so the iteration order of the model is irrelevant.
- Python truthiness of a JSON value is modelled by `falsy`.
- The fixed regexes of the script are modelled by executable matchers over
  the string's character list; the Python `\d` class is modelled as an ASCII
  digit, which agrees with Python on every key shape that the script targets.
- The script's floats are modelled as rationals; the script never computes
  with them, it only classifies and copies them.
- `requests.get` network effects are modelled by an explicit `RequestOutcome`
  argument describing how the one HTTP request turned out.
-/

/-- A JSON value as produced by `resp.json()` in the script: `None`, booleans,
integers, floats, strings, objects (Python dicts in insertion order) and
arrays. -/
inductive JValue where
  | null : JValue
  | bool (b : Bool) : JValue
  | int (n : Int) : JValue
  | float (q : Rat) : JValue
  | str (s : String) : JValue
  | obj (fields : List (String × JValue)) : JValue
  | arr (items : List JValue) : JValue

/-- Python truthiness (`if not data`) of a JSON value: `None`, `False`, `0`,
`0.0`, `""`, `{}` and `[]` are falsy, everything else is truthy. -/
def falsy : JValue → Bool
  | JValue.null => true
  | JValue.bool b => !b
  | JValue.int n => n == 0
  | JValue.float q => q == 0
  | JValue.str s => s == ""
  | JValue.obj fields => fields.isEmpty
  | JValue.arr items => items.isEmpty

/-- Python `value is None`. -/
def is_none : JValue → Bool
  | JValue.null => true
  | _ => false

/-- Python `isinstance(value, bool)`. -/
def isinstance_bool : JValue → Bool
  | JValue.bool _ => true
  | _ => false

/-- Python `isinstance(value, int)`. In Python, `bool` is a subclass of
`int`, so booleans also satisfy this check; the script relies on checking
`bool` first. -/
def isinstance_int : JValue → Bool
  | JValue.int _ => true
  | JValue.bool _ => true
  | _ => false

/-- Python `isinstance(value, float)`. -/
def isinstance_float : JValue → Bool
  | JValue.float _ => true
  | _ => false

/-- Python `isinstance(value, str)`. -/
def isinstance_str : JValue → Bool
  | JValue.str _ => true
  | _ => false

/-- Python `isinstance(value, dict)`. -/
def isinstance_dict : JValue → Bool
  | JValue.obj _ => true
  | _ => false

/-- Python `isinstance(value, list)`. -/
def isinstance_list : JValue → Bool
  | JValue.arr _ => true
  | _ => false

/-- `infer_type` from the script: a chain of `isinstance` checks evaluated
top to bottom, with the `bool` check placed before the `int` check. -/
def infer_type (value : JValue) : String :=
  if is_none value then "null"
  else if isinstance_bool value then "boolean"
  else if isinstance_int value then "integer"
  else if isinstance_float value then "float"
  else if isinstance_str value then "string"
  else if isinstance_dict value then "object"
  else if isinstance_list value then "array"
  else "unknown"

/-- Python `data[k]` on a dict modelled as an association list: the value at
the first matching key. Dict keys are distinct in Python, so the first match
is the only match; the script only looks up keys that are present, so the
`JValue.null` default of the empty case is never observable. -/
def jget (fields : List (String × JValue)) (k : String) : JValue :=
  match fields with
  | [] => JValue.null
  | kv :: rest => if kv.1 = k then kv.2 else jget rest k

/-- Consume exactly `n` ASCII digits (`\d{n}`) from the front of a character
list, returning the remainder on success. -/
def match_n_digits : Nat → List Char → Option (List Char)
  | 0, cs => some cs
  | _ + 1, [] => none
  | n + 1, c :: cs => if c.isDigit then match_n_digits n cs else none

/-- Consume one fixed literal character from the front of a character list. -/
def match_lit (ch : Char) : List Char → Option (List Char)
  | [] => none
  | c :: cs => if c = ch then some cs else none

/-- The anchored timestamp regex of `extract_complete_schema`:
`^\d{4}-\d{2}-\d{2}_\d{2}-\d{2}-\d{2}_\d+$`. -/
def ts_regex_match (s : String) : Bool :=
  match (match_n_digits 4 s.data).bind (match_lit '-') |>.bind (match_n_digits 2)
      |>.bind (match_lit '-') |>.bind (match_n_digits 2) |>.bind (match_lit '_')
      |>.bind (match_n_digits 2) |>.bind (match_lit '-') |>.bind (match_n_digits 2)
      |>.bind (match_lit '-') |>.bind (match_n_digits 2) |>.bind (match_lit '_') with
  | some rest => !rest.isEmpty && rest.all Char.isDigit
  | none => false

/-- The unanchored-at-the-right timestamp check of `build_detailed_schema`:
`re.match(r"^\d{4}-\d{2}-\d{2}_", key)`, i.e. the key starts with
`\d{4}-\d{2}-\d{2}_` and the rest is arbitrary. -/
def ts_head_match (s : String) : Bool :=
  ((match_n_digits 4 s.data).bind (match_lit '-') |>.bind (match_n_digits 2)
      |>.bind (match_lit '-') |>.bind (match_n_digits 2) |>.bind (match_lit '_')).isSome

/-- Add one element to a Python set modelled as a duplicate-free list. -/
def insertSet (s : List String) (k : String) : List String :=
  if k ∈ s then s else s ++ [k]

/-- The mutable accumulators of the four-level loop nest in
`extract_complete_schema`: the sets `all_devices`, `all_sensors`, `all_hps`
and `record_fields`, the flag recording whether `timestamp_pattern` was set,
and the counter `total_records`. -/
structure TravState where
  devices : List String
  sensors : List String
  hps : List String
  tsSeen : Bool
  recFields : List String
  totalRecords : Nat
deriving Repr, DecidableEq

/-- Innermost loop body of `extract_complete_schema`: one `(ts_key, record)`
iteration — set the timestamp flag on a regex match, bump `total_records`,
and union the record's keys into `record_fields` when it is a dict. -/
def stepRecord (st : TravState) (ts_key : String) (record : JValue) : TravState :=
  let st1 := if ts_regex_match ts_key then { st with tsSeen := true } else st
  let st2 := { st1 with totalRecords := st1.totalRecords + 1 }
  match record with
  | JValue.obj rf => { st2 with recFields := rf.foldl (fun s kv => insertSet s kv.1) st2.recFields }
  | _ => st2

/-- One `(hp_id, hp_data)` iteration: add the key to `all_hps`, then walk the
timestamp entries when `hp_data` is a dict (otherwise `continue`). -/
def stepHp (st : TravState) (hp_id : String) (hp_data : JValue) : TravState :=
  let st1 := { st with hps := insertSet st.hps hp_id }
  match hp_data with
  | JValue.obj items => items.foldl (fun s kv => stepRecord s kv.1 kv.2) st1
  | _ => st1

/-- One `(sensor_id, sensor_data)` iteration: add the key to `all_sensors`,
then walk the heater-profile entries when `sensor_data` is a dict. -/
def stepSensor (st : TravState) (sensor_id : String) (sensor_data : JValue) : TravState :=
  let st1 := { st with sensors := insertSet st.sensors sensor_id }
  match sensor_data with
  | JValue.obj items => items.foldl (fun s kv => stepHp s kv.1 kv.2) st1
  | _ => st1

/-- One `(device_id, device_data)` iteration: add the key to `all_devices`,
then walk the sensor entries when `device_data` is a dict. -/
def stepDevice (st : TravState) (device_id : String) (device_data : JValue) : TravState :=
  let st1 := { st with devices := insertSet st.devices device_id }
  match device_data with
  | JValue.obj items => items.foldl (fun s kv => stepSensor s kv.1 kv.2) st1
  | _ => st1

/-- The whole four-level loop nest of `extract_complete_schema`, starting
from empty sets and a zero counter. -/
def traverse_all (fields : List (String × JValue)) : TravState :=
  fields.foldl (fun st kv => stepDevice st kv.1 kv.2) ⟨[], [], [], false, [], 0⟩

/-- The items of a value when it is a dict, and `[]` otherwise (the loops
`continue` past non-dict values, which is the same as iterating nothing). -/
def dict_items : JValue → List (String × JValue)
  | JValue.obj fields => fields
  | _ => []

/-- All key/value entries one level below a list of entries: the
concatenation of the dict items of every value. -/
def child_items (l : List (String × JValue)) : List (String × JValue) :=
  l.flatMap (fun kv => dict_items kv.2)

/-- The fourth-level entries of the tree: the `(ts_key, record)` pairs the
innermost loop of `extract_complete_schema` visits. -/
def record_items (fields : List (String × JValue)) : List (String × JValue) :=
  child_items (child_items (child_items fields))

/-- Every field-name occurrence across all leaf records, in traversal
order. -/
def record_key_list (fields : List (String × JValue)) : List String :=
  (record_items fields).flatMap (fun kv => (dict_items kv.2).map Prod.fst)

/-- Field names contributed by a list of `(ts_key, record)` entries. -/
def level_rec_keys (items : List (String × JValue)) : List String :=
  items.flatMap (fun kv => (dict_items kv.2).map Prod.fst)

/-- The second pass of `extract_complete_schema`: find the first non-empty
dict record in the four-level nest (the nested `break` cascade). -/
def find_sample (fields : List (String × JValue)) : Option (List (String × JValue)) :=
  fields.findSome? fun dkv =>
    match dkv.2 with
    | JValue.obj sensors =>
      sensors.findSome? fun skv =>
        match skv.2 with
        | JValue.obj hps =>
          hps.findSome? fun hkv =>
            match hkv.2 with
            | JValue.obj records =>
              records.findSome? fun rkv =>
                match rkv.2 with
                | JValue.obj r => if r.isEmpty then none else some r
                | _ => none
            | _ => none
        | _ => none
    | _ => none

/-- One level entry of the aggregated schema (`root`, `device`, `sensor`):
sorted key list, count, type tag and hardcoded description. -/
structure LevelInfo where
  keys : List String
  count : Nat
  typ : String
  description : String
deriving Repr, DecidableEq

/-- The `hp` level entry of the aggregated schema: timestamp key pattern
instead of an explicit key list. -/
structure HpLevel where
  key_pattern : String
  typ : String
  description : String
deriving Repr, DecidableEq

/-- The four entries written into `schema["levels"]`. -/
structure Levels where
  root : LevelInfo
  device : LevelInfo
  sensor : LevelInfo
  hp : HpLevel
deriving Repr, DecidableEq

/-- Sorting for Python `sorted` over strings. -/
def sorted_strings (l : List String) : List String :=
  List.insertionSort (fun a b => a ≤ b) l

/-- The aggregated `schema["stats"]` record. -/
structure Stats where
  total_devices : Nat
  total_sensors : Nat
  total_hps : Nat
  total_records : Nat
deriving Repr, DecidableEq

/-- The aggregated `schema["record_fields"]` entry: sorted union of leaf
record field names, its count, description, and one sampled record with
per-field inferred type and raw value. -/
structure RecordFields where
  keys : List String
  count : Nat
  description : String
  field_types : List (String × String × JValue)

/-- The aggregated schema. `levels` and `record_fields` are `Option`s whose
`none` models, respectively, the empty `"levels": {}` mapping and the
`"record_fields": None` entry of the default schema that the guard clause
returns. -/
structure Schema where
  structure_desc : String
  levels : Option Levels
  record_fields : Option RecordFields
  stats : Stats

/-- The default schema built at the top of `extract_complete_schema` and
returned unchanged when the input is falsy or not a dict. -/
def default_schema : Schema :=
  { structure_desc := "Device_X / BME_XX / HP_XXX / timestamp / \x7b record \x7d"
    levels := none
    record_fields := none
    stats := ⟨0, 0, 0, 0⟩ }

/-- The sampled record of the second pass, with per-field inferred type and
raw value (`sample_record or {}`). -/
def sample_field_types (fields : List (String × JValue)) : List (String × String × JValue) :=
  match find_sample fields with
  | some r => r.map (fun kv => (kv.1, infer_type kv.2, kv.2))
  | none => []

/-- `extract_complete_schema` from the script. The guard
`if not data or not isinstance(data, dict)` returns the default schema for
every non-dict and for the empty dict; otherwise the four-level traversal
fills in the level key sets, the record-field union and the stats, and the
second pass fills in the sampled field types. -/
def extract_complete_schema (data : JValue) : Schema :=
  match data with
  | JValue.obj fields =>
    if fields.isEmpty then default_schema
    else
      let st := traverse_all fields
      { structure_desc := default_schema.structure_desc
        levels := some
          { root := ⟨sorted_strings st.devices, st.devices.length, "object",
              "Device IDs (Device_1, Device_2, ...)"⟩
            device := ⟨sorted_strings st.sensors, st.sensors.length, "object",
              "Sensor IDs (BME_01 to BME_16)"⟩
            sensor := ⟨sorted_strings st.hps, st.hps.length, "object",
              "Heater Profile IDs (Hp_301, Hp_322, ...)"⟩
            hp := ⟨(if st.tsSeen then "YYYY-MM-DD_HH-MM-SS_nanoseconds" else "string"), "object",
              "Timestamp keys (YYYY-MM-DD_HH-MM-SS_nanoseconds)"⟩ }
        record_fields := some
          { keys := sorted_strings st.recFields
            count := st.recFields.length
            description := "Fields in each reading record"
            field_types := sample_field_types fields }
        stats := ⟨st.devices.length, st.sensors.length, st.hps.length, st.totalRecords⟩ }
  | _ => default_schema

/-- The `key_pattern` reported for the timestamp level, or `""` when the
schema is the default one with no levels. -/
def hp_key_pattern (s : Schema) : String :=
  match s.levels with
  | some lv => lv.hp.key_pattern
  | none => ""

/-- The sorted union of leaf-record field names reported by the schema, or
`[]` when the schema is the default one. -/
def record_field_keys (s : Schema) : List String :=
  match s.record_fields with
  | some rf => rf.keys
  | none => []

/-- The node shapes `build_detailed_schema` can return, one constructor per
return statement of the source: the falsy leaf, the timestamp-keyed
container, the flat record, the generic container, the bare
`{"_type": ...}` dict built for a non-dict sampled record, and the primitive
leaf of the final fall-through return. -/
inductive DetailedSchema where
  | nullLeaf (path : String)
  | tsContainer (path : String) (key_count : Nat) (sample_keys : List String)
      (record_schema : DetailedSchema)
  | flatRecord (path : String) (keys : List String)
      (field_types : List (String × String)) (sample_values : List (String × JValue))
  | container (path : String) (keys : List String) (key_count : Nat)
      (children : List (String × DetailedSchema))
  | typeOnly (typ : String)
  | leaf (path : String) (typ : String) (sample : JValue)

/-- `keys and re.match(r"^\d{4}-\d{2}-\d{2}_", str(keys[0]))`: the dict is
non-empty and its first key, in iteration order, starts with the timestamp
prefix pattern. -/
def first_key_ts (fields : List (String × JValue)) : Bool :=
  match fields with
  | [] => false
  | kv :: _ => ts_head_match kv.1

/-- `not isinstance(v, (dict, list))`. -/
def is_primitive : JValue → Bool
  | JValue.obj _ => false
  | JValue.arr _ => false
  | _ => true

/-- `keys and all(not isinstance(data[k], (dict, list)) for k in keys)`. -/
def all_values_primitive (fields : List (String × JValue)) : Bool :=
  !fields.isEmpty && (fields.map Prod.fst).all (fun k => is_primitive (jget fields k))

/-- The child path `f"{path}/{key}" if path else key` of the generic
container branch. -/
def child_path (path k : String) : String :=
  if path = "" then k else path ++ "/" ++ k

/-- `sorted(keys)` paired with `data[key]` lookups: because Python dict keys
are distinct, iterating `sorted(keys)` and looking each key up is the same
as iterating the key-sorted list of entries, which is how the generic
container branch is modelled. -/
def sort_pairs (fields : List (String × JValue)) : List (String × JValue) :=
  List.insertionSort (fun a b => a.1 ≤ b.1) fields

mutual

/-- `build_detailed_schema` from the script: classify the node top-to-bottom
as falsy leaf, timestamp container (sampling only the one record
`sample_record = data[keys[0]]`, recursing into it exactly when it is a
dict), flat record, generic container (recursing into every child in sorted
key order), or primitive leaf. -/
def build_detailed_schema (data : JValue) (path : String) (depth : Nat) : DetailedSchema :=
  if falsy data then DetailedSchema.nullLeaf path
  else
    match data with
    | JValue.obj fields =>
      if first_key_ts fields then
        let sample_ts := (fields.map Prod.fst).headD ""
        let sample_record := jget fields sample_ts
        let record_schema :=
          if isinstance_dict sample_record then
            build_detailed_schema sample_record (path ++ "/" ++ sample_ts) (depth + 1)
          else DetailedSchema.typeOnly (infer_type sample_record)
        DetailedSchema.tsContainer path fields.length ((fields.map Prod.fst).take 3) record_schema
      else if all_values_primitive fields then
        DetailedSchema.flatRecord path (sorted_strings (fields.map Prod.fst))
          ((fields.map Prod.fst).map (fun k => (k, infer_type (jget fields k))))
          ((fields.map Prod.fst).map (fun k => (k, jget fields k)))
      else
        DetailedSchema.container path (sorted_strings (fields.map Prod.fst)) fields.length
          (build_children (sort_pairs fields) path depth)
    | _ => DetailedSchema.leaf path (infer_type data) data
termination_by sizeOf data
decreasing_by
  · have hj : ∀ (l : List (String × JValue)) (key : String),
        sizeOf (jget l key) < sizeOf (JValue.obj l) := by
      intro l key
      induction l with
      | nil => simp [jget]
      | cons kv rest ih =>
        obtain ⟨k2, v⟩ := kv
        simp only [jget, JValue.obj.sizeOf_spec, List.cons.sizeOf_spec,
          Prod.mk.sizeOf_spec] at ih ⊢
        split
        · omega
        · omega
    exact Nat.lt_of_lt_of_le (hj _ _) (by simp)
  · have hperm : ∀ {l1 l2 : List (String × JValue)}, l1.Perm l2 → sizeOf l1 = sizeOf l2 := by
      intro l1 l2 hp
      induction hp with
      | nil => rfl
      | cons a _ ih => simp only [List.cons.sizeOf_spec]; omega
      | swap a b l => simp only [List.cons.sizeOf_spec]; omega
      | trans _ _ ih1 ih2 => omega
    have hs : ∀ l : List (String × JValue), sizeOf (sort_pairs l) = sizeOf l := by
      intro l
      unfold sort_pairs
      exact hperm (List.perm_insertionSort _ l)
    simp [hs]

/-- The loop `for key in sorted(keys): children[key] = build_detailed_schema
(data[key], ...)` of the generic container branch, iterating the key-sorted
entries. -/
def build_children (pairs : List (String × JValue)) (path : String) (depth : Nat) :
    List (String × DetailedSchema) :=
  match pairs with
  | [] => []
  | (k, v) :: rest =>
    (k, build_detailed_schema v (child_path path k) (depth + 1)) :: build_children rest path depth
termination_by sizeOf pairs
decreasing_by
  · simp only [List.cons.sizeOf_spec, Prod.mk.sizeOf_spec]; omega
  · simp only [List.cons.sizeOf_spec, Prod.mk.sizeOf_spec]; omega

end

/-- A fuel-indexed variant of `build_detailed_schema`, structurally recursive
in its fuel argument and hence directly computable: it returns `none` when
the fuel runs out before the recursion bottoms out, and otherwise the same
node `build_detailed_schema` builds. Used to state termination: fuel equal to
the size of the tree always suffices, because every recursive call of the
source descends into an immediate child of the current node. -/
def build_fuel : Nat → JValue → String → Nat → Option DetailedSchema
  | 0, _, _, _ => none
  | fuel + 1, data, path, depth =>
    if falsy data then some (DetailedSchema.nullLeaf path)
    else
      match data with
      | JValue.obj fields =>
        if first_key_ts fields then
          let sample_ts := (fields.map Prod.fst).headD ""
          let sample_record := jget fields sample_ts
          if isinstance_dict sample_record then
            (build_fuel fuel sample_record (path ++ "/" ++ sample_ts) (depth + 1)).map
              (fun rs => DetailedSchema.tsContainer path fields.length
                ((fields.map Prod.fst).take 3) rs)
          else
            some (DetailedSchema.tsContainer path fields.length
              ((fields.map Prod.fst).take 3) (DetailedSchema.typeOnly (infer_type sample_record)))
        else if all_values_primitive fields then
          some (DetailedSchema.flatRecord path (sorted_strings (fields.map Prod.fst))
            ((fields.map Prod.fst).map (fun k => (k, infer_type (jget fields k))))
            ((fields.map Prod.fst).map (fun k => (k, jget fields k))))
        else
          ((sort_pairs fields).mapM
              (fun kv => (build_fuel fuel kv.2 (child_path path kv.1) (depth + 1)).map
                (fun c => (kv.1, c)))).map
            (fun cs => DetailedSchema.container path (sorted_strings (fields.map Prod.fst))
              fields.length cs)
      | _ => some (DetailedSchema.leaf path (infer_type data) data)

/-- How the single `requests.get` call of `fetch` can turn out: a successful
response whose JSON body parsed to the given value, a response whose
non-success HTTP status makes `raise_for_status` raise, or a transport
error raised by `requests.get` itself. Both raising cases are instances of
`requests.RequestException`, which `fetch` catches. -/
inductive RequestOutcome where
  | success (body : JValue)
  | httpError (status : Nat)
  | networkError (message : String)

/-- An outcome the `except requests.RequestException` clause intercepts. -/
def is_error_outcome : RequestOutcome → Bool
  | RequestOutcome.success _ => false
  | RequestOutcome.httpError _ => true
  | RequestOutcome.networkError _ => true

/-- The URL `fetch` requests: the fixed base, the path, the `.json` suffix
and the optional shallow flag. -/
def fetch_url (path : String) (shallow : Bool) : String :=
  "https://knose-e1959-default-rtdb.firebaseio.com" ++ "/" ++ path ++ ".json" ++
    (if shallow then "?shallow=true" else "")

/-- `fetch` from the script, as a function of the request outcome: on
success it returns the parsed body, and on any `RequestException` (transport
error or `raise_for_status` on a non-success HTTP status) it logs and
returns `None` instead of propagating the exception. Python's `None` is the
same value as JSON `null`, so the error result is `JValue.null`. -/
def fetch (outcome : RequestOutcome) : JValue :=
  match outcome with
  | RequestOutcome.success body => body
  | RequestOutcome.httpError _ => JValue.null
  | RequestOutcome.networkError _ => JValue.null

/-- The schema-producing behaviour of `main`: fetch the full tree; when the
result is `None` print an error and return early with no schema work done;
otherwise build and return both schemas (the `result` dict that `main`
prints and optionally saves). -/
def run (outcome : RequestOutcome) : Option (Schema × DetailedSchema) :=
  match fetch outcome with
  | JValue.null => none
  | data => some (extract_complete_schema data, build_detailed_schema data "root" 0)

/-- A dict lookup returns either the default `JValue.null` or a value stored
inside the association list, both of strictly smaller size than the dict. -/
theorem jget_sizeOf_lt (fields : List (String × JValue)) (k : String) :
    sizeOf (jget fields k) < sizeOf (JValue.obj fields) := by
  induction fields with
  | nil => simp [jget]
  | cons kv rest ih =>
    obtain ⟨k2, v⟩ := kv
    simp only [jget, JValue.obj.sizeOf_spec, List.cons.sizeOf_spec, Prod.mk.sizeOf_spec] at ih ⊢
    split
    · omega
    · omega

/-- Permutations preserve `sizeOf`; needed because the generic container
branch recurses into the key-sorted permutation of the dict entries. -/
theorem perm_sizeOf_eq {α : Type} [SizeOf α] {l1 l2 : List α} (h : l1.Perm l2) :
    sizeOf l1 = sizeOf l2 := by
  induction h with
  | nil => rfl
  | cons a _ ih => simp only [List.cons.sizeOf_spec]; omega
  | swap a b l => simp only [List.cons.sizeOf_spec]; omega
  | trans _ _ ih1 ih2 => omega

theorem sort_pairs_sizeOf (fields : List (String × JValue)) :
    sizeOf (sort_pairs fields) = sizeOf fields := by
  unfold sort_pairs
  exact perm_sizeOf_eq (List.perm_insertionSort _ fields)

theorem sort_pairs_perm (fields : List (String × JValue)) :
    (sort_pairs fields).Perm fields := by
  unfold sort_pairs
  exact List.perm_insertionSort _ fields

/-- Any entry of a dict is smaller than the entry list itself. -/
theorem mem_snd_sizeOf_lt {kv : String × JValue} {l : List (String × JValue)}
    (h : kv ∈ l) : sizeOf kv.2 < sizeOf l := by
  have h1 := List.sizeOf_lt_of_mem h
  obtain ⟨k, v⟩ := kv
  simp only [Prod.mk.sizeOf_spec] at h1
  simp only []
  omega

/-- Unfolding of the child loop into a `map` over the key-sorted entries. -/
theorem build_children_eq (pairs : List (String × JValue)) (path : String) (depth : Nat) :
    build_children pairs path depth =
      pairs.map (fun kv =>
        (kv.1, build_detailed_schema kv.2 (child_path path kv.1) (depth + 1))) := by
  induction pairs with
  | nil => simp [build_children]
  | cons kv rest ih =>
    obtain ⟨k, v⟩ := kv
    simp [build_children, ih]

/-- A `mapM` over `Option` succeeds pointwise: if the function returns
`some (g a)` on every element, the whole traversal returns the mapped
list. -/
theorem mapM_option_eq_map {α β : Type} (f : α → Option β) (g : α → β) :
    ∀ l : List α, (∀ a, a ∈ l → f a = some (g a)) → l.mapM f = some (l.map g) := by
  intro l
  induction l with
  | nil => intro _; rfl
  | cons a rest ih =>
    intro h
    rw [List.mapM_cons, h a (List.mem_cons_self a rest),
      ih (fun b hb => h b (List.mem_cons_of_mem a hb))]
    rfl

/-- `build_fuel` agrees with `build_detailed_schema` whenever the fuel
exceeds the size of the tree. -/
theorem build_fuel_spec :
    ∀ (fuel : Nat) (data : JValue) (path : String) (depth : Nat),
      sizeOf data < fuel →
      build_fuel fuel data path depth = some (build_detailed_schema data path depth) := by
  intro fuel
  induction fuel with
  | zero => intro data _ _ h; exact absurd h (Nat.not_lt_zero _)
  | succ n ih =>
    intro data path depth h
    cases data with
    | obj fields =>
      rw [build_fuel, build_detailed_schema]
      by_cases hf : falsy (JValue.obj fields)
      · simp [hf]
      · simp only [hf, Bool.false_eq_true, if_false]
        by_cases hts : first_key_ts fields
        · simp only [hts, if_true]
          have hsz := jget_sizeOf_lt fields ((fields.map Prod.fst).headD "")
          simp only [JValue.obj.sizeOf_spec] at h hsz
          by_cases hd : isinstance_dict (jget fields ((fields.map Prod.fst).headD ""))
          · simp only [hd, if_true]
            rw [ih (jget fields ((fields.map Prod.fst).headD "")) _ (depth + 1) (by omega)]
            rfl
          · simp only [hd, Bool.false_eq_true, if_false]
        · simp only [hts, Bool.false_eq_true, if_false]
          by_cases hprim : all_values_primitive fields
          · simp [hprim]
          · simp only [hprim, Bool.false_eq_true, if_false]
            rw [mapM_option_eq_map _
                (fun kv => (kv.1, build_detailed_schema kv.2 (child_path path kv.1) (depth + 1)))
                (sort_pairs fields) ?_]
            · rw [build_children_eq]
              rfl
            · intro kv hkv
              have hmem : kv ∈ fields := (sort_pairs_perm fields).mem_iff.mp hkv
              have hsz := mem_snd_sizeOf_lt hmem
              simp only [JValue.obj.sizeOf_spec] at h
              rw [ih kv.2 (child_path path kv.1) (depth + 1) (by omega)]
              rfl
    | null => simp [build_fuel, build_detailed_schema, falsy]
    | bool b => cases b <;> simp [build_fuel, build_detailed_schema, falsy]
    | int m =>
      by_cases hf : falsy (JValue.int m) <;> simp [build_fuel, build_detailed_schema, hf]
    | float q =>
      by_cases hf : falsy (JValue.float q) <;> simp [build_fuel, build_detailed_schema, hf]
    | str s =>
      by_cases hf : falsy (JValue.str s) <;> simp [build_fuel, build_detailed_schema, hf]
    | arr items =>
      by_cases hf : falsy (JValue.arr items) <;> simp [build_fuel, build_detailed_schema, hf]

/-- Evaluate `build_detailed_schema` on a concrete input through the
computable `build_fuel`. -/
theorem build_eval {data : JValue} {path : String} {depth : Nat} {r : DetailedSchema}
    (h : build_fuel (sizeOf data + 1) data path depth = some r) :
    build_detailed_schema data path depth = r := by
  have h2 := build_fuel_spec (sizeOf data + 1) data path depth (Nat.lt_succ_self _)
  rw [h] at h2
  exact (Option.some.inj h2).symm

/-- Membership in an `insertSet` fold: exactly the starting elements and the
inserted ones. -/
theorem mem_foldl_insertSet :
    ∀ (l : List String) (acc : List String) (x : String),
      x ∈ List.foldl insertSet acc l ↔ x ∈ acc ∨ x ∈ l := by
  intro l
  induction l with
  | nil => intro acc x; simp
  | cons a rest ih =>
    intro acc x
    rw [List.foldl_cons, ih]
    unfold insertSet
    by_cases ha : a ∈ acc
    · simp only [ha, if_true]
      constructor
      · rintro (hx | hx)
        · exact Or.inl hx
        · exact Or.inr (List.mem_cons_of_mem a hx)
      · rintro (hx | hx)
        · exact Or.inl hx
        · rcases List.mem_cons.mp hx with h1 | h1
          · exact Or.inl (h1 ▸ ha)
          · exact Or.inr h1
    · simp only [ha, if_false, List.mem_append, List.mem_singleton, List.mem_cons]
      tauto

/-- An `insertSet` fold preserves duplicate-freeness. -/
theorem nodup_foldl_insertSet :
    ∀ (l : List String) (acc : List String), acc.Nodup →
      (List.foldl insertSet acc l).Nodup := by
  intro l
  induction l with
  | nil => intro acc h; exact h
  | cons a rest ih =>
    intro acc h
    rw [List.foldl_cons]
    apply ih
    unfold insertSet
    by_cases ha : a ∈ acc
    · simpa [ha] using h
    · simp only [ha, if_false]
      exact List.Nodup.append h (List.nodup_singleton a) (by simpa using ha)

/-- The length of an `insertSet` fold from the empty set is the number of
distinct inserted elements. -/
theorem length_foldl_insertSet (l : List String) :
    (List.foldl insertSet [] l).length = l.toFinset.card := by
  have hnd := nodup_foldl_insertSet l [] List.nodup_nil
  have hmem : ∀ x, x ∈ List.foldl insertSet [] l ↔ x ∈ l := by
    intro x
    rw [mem_foldl_insertSet]
    simp
  have htf : (List.foldl insertSet [] l).toFinset = l.toFinset := by
    ext x
    simp only [List.mem_toFinset]
    exact hmem x
  rw [← List.toFinset_card_of_nodup hnd, htf]

/-- Closed form of one innermost iteration. -/
theorem stepRecord_eq (st : TravState) (k : String) (v : JValue) :
    stepRecord st k v =
      { st with
        tsSeen := st.tsSeen || ts_regex_match k
        recFields := List.foldl insertSet st.recFields ((dict_items v).map Prod.fst)
        totalRecords := st.totalRecords + 1 } := by
  cases st
  unfold stepRecord
  cases v <;> by_cases hk : ts_regex_match k <;>
    simp [hk, dict_items, List.foldl_map]

/-- Closed form of the innermost loop over the timestamp entries. -/
theorem fold_stepRecord (items : List (String × JValue)) (st : TravState) :
    items.foldl (fun s kv => stepRecord s kv.1 kv.2) st =
      { st with
        tsSeen := st.tsSeen || (items.map Prod.fst).any ts_regex_match
        recFields := List.foldl insertSet st.recFields (level_rec_keys items)
        totalRecords := st.totalRecords + items.length } := by
  induction items generalizing st with
  | nil => simp [level_rec_keys]
  | cons kv rest ih =>
    rw [List.foldl_cons, ih, stepRecord_eq]
    simp [level_rec_keys, Bool.or_assoc, List.foldl_append, Nat.add_assoc,
      Nat.add_comm 1 rest.length]

/-- Closed form of one heater-profile iteration. -/
theorem stepHp_eq (st : TravState) (k : String) (v : JValue) :
    stepHp st k v =
      { st with
        hps := insertSet st.hps k
        tsSeen := st.tsSeen || ((dict_items v).map Prod.fst).any ts_regex_match
        recFields := List.foldl insertSet st.recFields (level_rec_keys (dict_items v))
        totalRecords := st.totalRecords + (dict_items v).length } := by
  unfold stepHp
  cases v <;> simp [dict_items, level_rec_keys, fold_stepRecord]

/-- Closed form of the loop over a sensor's heater-profile entries. -/
theorem fold_stepHp (items : List (String × JValue)) (st : TravState) :
    items.foldl (fun s kv => stepHp s kv.1 kv.2) st =
      { st with
        hps := List.foldl insertSet st.hps (items.map Prod.fst)
        tsSeen := st.tsSeen || ((child_items items).map Prod.fst).any ts_regex_match
        recFields := List.foldl insertSet st.recFields (level_rec_keys (child_items items))
        totalRecords := st.totalRecords + (child_items items).length } := by
  induction items generalizing st with
  | nil => simp [child_items, level_rec_keys]
  | cons kv rest ih =>
    rw [List.foldl_cons, ih, stepHp_eq]
    simp [child_items, level_rec_keys, Bool.or_assoc, List.foldl_append, Nat.add_assoc]

/-- Closed form of one sensor iteration. -/
theorem stepSensor_eq (st : TravState) (k : String) (v : JValue) :
    stepSensor st k v =
      { st with
        sensors := insertSet st.sensors k
        hps := List.foldl insertSet st.hps ((dict_items v).map Prod.fst)
        tsSeen := st.tsSeen || ((child_items (dict_items v)).map Prod.fst).any ts_regex_match
        recFields := List.foldl insertSet st.recFields (level_rec_keys (child_items (dict_items v)))
        totalRecords := st.totalRecords + (child_items (dict_items v)).length } := by
  unfold stepSensor
  cases v <;> simp [dict_items, child_items, level_rec_keys, fold_stepHp]

/-- Closed form of the loop over a device's sensor entries. -/
theorem fold_stepSensor (items : List (String × JValue)) (st : TravState) :
    items.foldl (fun s kv => stepSensor s kv.1 kv.2) st =
      { st with
        sensors := List.foldl insertSet st.sensors (items.map Prod.fst)
        hps := List.foldl insertSet st.hps ((child_items items).map Prod.fst)
        tsSeen := st.tsSeen ||
          ((child_items (child_items items)).map Prod.fst).any ts_regex_match
        recFields := List.foldl insertSet st.recFields
          (level_rec_keys (child_items (child_items items)))
        totalRecords := st.totalRecords + (child_items (child_items items)).length } := by
  induction items generalizing st with
  | nil => simp [child_items, level_rec_keys]
  | cons kv rest ih =>
    rw [List.foldl_cons, ih, stepSensor_eq]
    simp [child_items, level_rec_keys, Bool.or_assoc, List.foldl_append, Nat.add_assoc]

/-- Closed form of one device iteration. -/
theorem stepDevice_eq (st : TravState) (k : String) (v : JValue) :
    stepDevice st k v =
      { st with
        devices := insertSet st.devices k
        sensors := List.foldl insertSet st.sensors ((dict_items v).map Prod.fst)
        hps := List.foldl insertSet st.hps ((child_items (dict_items v)).map Prod.fst)
        tsSeen := st.tsSeen ||
          ((child_items (child_items (dict_items v))).map Prod.fst).any ts_regex_match
        recFields := List.foldl insertSet st.recFields
          (level_rec_keys (child_items (child_items (dict_items v))))
        totalRecords := st.totalRecords +
          (child_items (child_items (dict_items v))).length } := by
  unfold stepDevice
  cases v <;> simp [dict_items, child_items, level_rec_keys, fold_stepSensor]

/-- Closed form of the whole four-level traversal: each accumulator is an
independent fold or count over the flattened entries of its level. -/
theorem traverse_eq (fields : List (String × JValue)) :
    traverse_all fields =
      { devices := List.foldl insertSet [] (fields.map Prod.fst)
        sensors := List.foldl insertSet [] ((child_items fields).map Prod.fst)
        hps := List.foldl insertSet [] ((child_items (child_items fields)).map Prod.fst)
        tsSeen := ((record_items fields).map Prod.fst).any ts_regex_match
        recFields := List.foldl insertSet [] (record_key_list fields)
        totalRecords := (record_items fields).length } := by
  unfold traverse_all record_items record_key_list
  have hgen : ∀ (l : List (String × JValue)) (st : TravState),
      l.foldl (fun s kv => stepDevice s kv.1 kv.2) st =
        { st with
          devices := List.foldl insertSet st.devices (l.map Prod.fst)
          sensors := List.foldl insertSet st.sensors ((child_items l).map Prod.fst)
          hps := List.foldl insertSet st.hps ((child_items (child_items l)).map Prod.fst)
          tsSeen := st.tsSeen ||
            ((child_items (child_items (child_items l))).map Prod.fst).any ts_regex_match
          recFields := List.foldl insertSet st.recFields
            (level_rec_keys (child_items (child_items (child_items l))))
          totalRecords := st.totalRecords +
            (child_items (child_items (child_items l))).length } := by
    intro l
    induction l with
    | nil => intro st; simp [child_items, level_rec_keys]
    | cons kv rest ih =>
      intro st
      rw [List.foldl_cons, ih, stepDevice_eq]
      simp [child_items, level_rec_keys, Bool.or_assoc, List.foldl_append, Nat.add_assoc]
  rw [hgen]
  simp [level_rec_keys, record_items]

theorem sorted_strings_sorted (l : List String) :
    List.Sorted (fun a b => a ≤ b) (sorted_strings l) := by
  unfold sorted_strings
  have h1 : IsTotal String (fun a b : String => a ≤ b) := ⟨le_total⟩
  have h2 : IsTrans String (fun a b : String => a ≤ b) := ⟨fun a b c => le_trans⟩
  exact List.sorted_insertionSort _ l

theorem sorted_strings_perm (l : List String) : (sorted_strings l).Perm l := by
  unfold sorted_strings
  exact List.perm_insertionSort _ l

/-- C1: for every input tree, the reported stats count exactly the distinct
top-level device keys, the distinct sensor keys across all devices, and the
total number of leaf records visited by the traversal; and the record
counter only ever grows as the traversal consumes device entries. -/
theorem extract_stats_counts (fields : List (String × JValue)) :
    (extract_complete_schema (JValue.obj fields)).stats.total_devices =
        (fields.map Prod.fst).toFinset.card ∧
    (extract_complete_schema (JValue.obj fields)).stats.total_sensors =
        ((child_items fields).map Prod.fst).toFinset.card ∧
    (extract_complete_schema (JValue.obj fields)).stats.total_records =
        (record_items fields).length ∧
    (∀ (st : TravState) (k : String) (v : JValue),
        st.totalRecords ≤ (stepDevice st k v).totalRecords) := by
  refine ⟨?_, ?_, ?_, ?_⟩
  case refine_4 =>
    intro st k v
    rw [stepDevice_eq]
    exact Nat.le_add_right _ _
  all_goals
    unfold extract_complete_schema
    by_cases he : fields.isEmpty
    · rw [List.isEmpty_iff.mp he]
      simp [default_schema, child_items, record_items]
    · simp only [he, Bool.false_eq_true, if_false, traverse_eq]
      try simp [length_foldl_insertSet]

/-- C2: every request outcome that `requests` raises on — a transport error
or a non-success HTTP status — makes `fetch` return `None` rather than
propagate the exception, and whenever `fetch` returns `None` the entry
point returns early with no schema produced. -/
theorem fetch_error_none_run_early :
    (∀ outcome : RequestOutcome, is_error_outcome outcome = true →
      fetch outcome = JValue.null) ∧
    (∀ outcome : RequestOutcome, fetch outcome = JValue.null → run outcome = none) := by
  constructor
  · intro outcome ho
    cases outcome with
    | success body => simp [is_error_outcome] at ho
    | httpError status => rfl
    | networkError message => rfl
  · intro outcome ho
    unfold run
    rw [ho]

/-- Witness for C2 at a concrete non-success HTTP status. -/
theorem fetch_error_none_run_early_witness :
    fetch (RequestOutcome.httpError 404) = JValue.null ∧
    run (RequestOutcome.httpError 404) = none :=
  ⟨fetch_error_none_run_early.1 (RequestOutcome.httpError 404) rfl,
   fetch_error_none_run_early.2 (RequestOutcome.httpError 404)
     (fetch_error_none_run_early.1 (RequestOutcome.httpError 404) rfl)⟩

/-- C3: a mapping whose first key (in iteration order) matches the timestamp
prefix pattern becomes a timestamp container whose key count is the number
of keys, whose sample keys are the first three keys, and whose record
schema is derived from exactly one child — the value at the first key
(recursed into when it is a dict, summarised by its inferred type
otherwise). -/
theorem build_ts_container (k0 : String) (v0 : JValue) (rest : List (String × JValue))
    (path : String) (depth : Nat) (h : ts_head_match k0 = true) :
    build_detailed_schema (JValue.obj ((k0, v0) :: rest)) path depth =
      DetailedSchema.tsContainer path (rest.length + 1) ((k0 :: rest.map Prod.fst).take 3)
        (if isinstance_dict v0 = true then
          build_detailed_schema v0 (path ++ "/" ++ k0) (depth + 1)
        else DetailedSchema.typeOnly (infer_type v0)) := by
  rw [build_detailed_schema.eq_def]
  have hfk : first_key_ts ((k0, v0) :: rest) = true := by
    simp [first_key_ts, h]
  simp [falsy, hfk, jget]

/-- Witness for C3 on the two-timestamp input of the claim: the key count is
2, both keys are sampled, and the record schema is derived from the single
entry at the first key, which evaluates to the flat record of that entry. -/
theorem build_ts_container_witness :
    build_detailed_schema (JValue.obj [
        ("2026-02-02_09-38-35_398398000", JValue.obj [("temp", JValue.int 1)]),
        ("2026-02-02_09-38-36_398398001", JValue.obj [("temp", JValue.int 2)])]) "" 0 =
      DetailedSchema.tsContainer "" 2
        ["2026-02-02_09-38-35_398398000", "2026-02-02_09-38-36_398398001"]
        (build_detailed_schema (JValue.obj [("temp", JValue.int 1)])
          ("" ++ "/" ++ "2026-02-02_09-38-35_398398000") (0 + 1)) ∧
    build_detailed_schema (JValue.obj [("temp", JValue.int 1)])
        ("" ++ "/" ++ "2026-02-02_09-38-35_398398000") (0 + 1) =
      DetailedSchema.flatRecord ("" ++ "/" ++ "2026-02-02_09-38-35_398398000") ["temp"]
        [("temp", "integer")] [("temp", JValue.int 1)] :=
  ⟨build_ts_container "2026-02-02_09-38-35_398398000" (JValue.obj [("temp", JValue.int 1)])
      [("2026-02-02_09-38-36_398398001", JValue.obj [("temp", JValue.int 2)])] "" 0 (by decide),
   build_eval rfl⟩

/-- C4 (amended): a non-empty mapping whose first key does not match the
timestamp prefix pattern and all of whose values are primitives becomes a
flat-record node with sorted keys, per-key inferred type, and per-key raw
sample value. -/
theorem build_flat_record (fields : List (String × JValue)) (path : String) (depth : Nat)
    (h1 : first_key_ts fields = false) (h2 : all_values_primitive fields = true) :
    build_detailed_schema (JValue.obj fields) path depth =
      DetailedSchema.flatRecord path (sorted_strings (fields.map Prod.fst))
        ((fields.map Prod.fst).map (fun k => (k, infer_type (jget fields k))))
        ((fields.map Prod.fst).map (fun k => (k, jget fields k))) := by
  have hne : fields.isEmpty = false := by
    unfold all_values_primitive at h2
    rcases Bool.and_eq_true_iff.mp h2 with ⟨hne1, _⟩
    simpa using hne1
  rw [build_detailed_schema.eq_def]
  simp [falsy, hne, h1, h2]

/-- Counterexample for C4 as stated: the mapping
`{"2026-01-01_00-00-00_000000000": 1}` is non-empty and all of its values
are primitives, yet `build_detailed_schema` returns a timestamp-container
node, not a flat-record node, because the timestamp branch is checked
first. -/
theorem build_flat_record_counterexample :
    build_detailed_schema (JValue.obj [("2026-01-01_00-00-00_000000000", JValue.int 1)]) "" 0 =
      DetailedSchema.tsContainer "" 1 ["2026-01-01_00-00-00_000000000"]
        (DetailedSchema.typeOnly "integer") ∧
    all_values_primitive [("2026-01-01_00-00-00_000000000", JValue.int 1)] = true :=
  ⟨build_eval rfl, by decide⟩

/-- Witness for C4 on the flat record of the claim: `temp` is inferred as
`float` and `humidity` as `integer`, with keys reported in sorted order. -/
theorem build_flat_record_witness :
    build_detailed_schema (JValue.obj [("temp", JValue.float (43 / 2)),
        ("humidity", JValue.int 40)]) "" 0 =
      DetailedSchema.flatRecord "" ["humidity", "temp"]
        [("temp", "float"), ("humidity", "integer")]
        [("temp", JValue.float (43 / 2)), ("humidity", JValue.int 40)] := by
  rw [build_flat_record [("temp", JValue.float (43 / 2)), ("humidity", JValue.int 40)] "" 0
    (by decide) (by decide)]
  with_unfolding_all rfl

/-- C5: for every mapping value `infer_type` returns `"object"`, for every
sequence value `"array"`, and for every boolean `"boolean"` and never
`"integer"`; the last conjunct shows booleans do pass the `isinstance(_,
int)` check, so only the bool-before-int ordering prevents the `"integer"`
answer. -/
theorem infer_type_tags :
    (∀ fields, infer_type (JValue.obj fields) = "object") ∧
    (∀ items, infer_type (JValue.arr items) = "array") ∧
    (∀ b, infer_type (JValue.bool b) = "boolean") ∧
    (∀ b, (infer_type (JValue.bool b) == "integer") = false) ∧
    (∀ b, isinstance_int (JValue.bool b) = true) :=
  ⟨fun _ => rfl, fun _ => rfl, fun b => by cases b <;> rfl,
   fun b => by cases b <;> decide, fun b => rfl⟩

/-- C6: the timestamp pattern check used by `extract_complete_schema`
accepts the full timestamp string and rejects the date-only string; on a
tree containing the full timestamp key the reported hp-level `key_pattern`
is the timestamp description, and with only the date-only key it stays
`"string"`. -/
theorem ts_pattern_accepts_rejects :
    ts_regex_match "2026-02-02_09-38-35_398398000" = true ∧
    ts_regex_match "2026-02-02" = false ∧
    hp_key_pattern (extract_complete_schema (JValue.obj [("d", JValue.obj [("s",
        JValue.obj [("h", JValue.obj [("2026-02-02_09-38-35_398398000",
        JValue.obj [("temp", JValue.int 1)])])])])])) =
      "YYYY-MM-DD_HH-MM-SS_nanoseconds" ∧
    hp_key_pattern (extract_complete_schema (JValue.obj [("d", JValue.obj [("s",
        JValue.obj [("h", JValue.obj [("2026-02-02",
        JValue.obj [("temp", JValue.int 1)])])])])])) = "string" :=
  ⟨by decide, by decide, rfl, rfl⟩

/-- C7: the reported `record_fields.keys` is the sorted, deduplicated union
of the field names appearing in the leaf records; on the concrete tree
whose two leaf records have field sets `{a, b}` and `{b, c}` the result is
`["a", "b", "c"]`. -/
theorem record_fields_sorted_union :
    (∀ fields : List (String × JValue),
      List.Sorted (fun a b => a ≤ b)
        (record_field_keys (extract_complete_schema (JValue.obj fields))) ∧
      (record_field_keys (extract_complete_schema (JValue.obj fields))).Nodup ∧
      (∀ s : String,
        s ∈ record_field_keys (extract_complete_schema (JValue.obj fields)) ↔
          s ∈ record_key_list fields)) ∧
    record_field_keys (extract_complete_schema (JValue.obj [("Device_1", JValue.obj [("BME_01",
        JValue.obj [("Hp_301", JValue.obj [
          ("2026-01-01_00-00-00_000000000", JValue.obj [("a", JValue.int 1), ("b", JValue.int 2)]),
          ("2026-01-01_00-00-01_000000000", JValue.obj [("b", JValue.int 3),
            ("c", JValue.int 4)])])])])])) =
      ["a", "b", "c"] := by
  constructor
  · intro fields
    unfold extract_complete_schema
    by_cases he : fields.isEmpty
    · rw [List.isEmpty_iff.mp he]
      simp [default_schema, record_field_keys, record_key_list, record_items, child_items]
    · simp only [he, Bool.false_eq_true, if_false, traverse_eq, record_field_keys]
      refine ⟨sorted_strings_sorted _, ?_, ?_⟩
      · exact (sorted_strings_perm _).nodup_iff.mpr
          (nodup_foldl_insertSet _ [] List.nodup_nil)
      · intro s
        rw [(sorted_strings_perm _).mem_iff, mem_foldl_insertSet]
        simp
  · with_unfolding_all rfl

/-- C8: `extract_complete_schema` on `None` and on the empty mapping both
return the default schema: every stat count is zero, the levels mapping is
empty and `record_fields` is `None`, so no level key set is recorded. -/
theorem extract_default_on_empty :
    extract_complete_schema JValue.null = default_schema ∧
    extract_complete_schema (JValue.obj []) = default_schema ∧
    default_schema.stats.total_devices = 0 ∧
    default_schema.stats.total_sensors = 0 ∧
    default_schema.stats.total_hps = 0 ∧
    default_schema.stats.total_records = 0 ∧
    default_schema.levels = none ∧
    default_schema.record_fields = none :=
  ⟨rfl, rfl, rfl, rfl, rfl, rfl, rfl, rfl⟩

/-- C9: every falsy node — `None` as well as present-but-falsy values such
as `0`, `False`, `0.0`, `""`, `{}` and `[]` — makes `build_detailed_schema`
return the leaf tagged `"null"`. -/
theorem build_null_leaf_on_falsy :
    (∀ (data : JValue) (path : String) (depth : Nat), falsy data = true →
      build_detailed_schema data path depth = DetailedSchema.nullLeaf path) ∧
    falsy JValue.null = true ∧ falsy (JValue.int 0) = true ∧
    falsy (JValue.bool false) = true ∧ falsy (JValue.str "") = true ∧
    falsy (JValue.obj []) = true ∧ falsy (JValue.arr []) = true ∧
    falsy (JValue.float 0) = true := by
  refine ⟨?_, rfl, by decide, rfl, by decide, rfl, rfl, by decide⟩
  intro data path depth h
  rw [build_detailed_schema.eq_def]
  simp [h]

/-- Witness for C9 at the falsy-but-present input `0`. -/
theorem build_null_leaf_on_falsy_witness :
    build_detailed_schema (JValue.int 0) "x" 0 = DetailedSchema.nullLeaf "x" :=
  build_null_leaf_on_falsy.1 (JValue.int 0) "x" 0 (by decide)

/-- C10: `build_detailed_schema` terminates on every finite tree because
each recursive call descends into an immediate child: the fuel-indexed
evaluator `build_fuel`, which gives up when its recursion budget is
exhausted, already converges to the total function's value with fuel
bounded by the size of the tree. -/
theorem build_detailed_schema_terminates (data : JValue) (path : String) (depth : Nat) :
    build_fuel (sizeOf data + 1) data path depth =
      some (build_detailed_schema data path depth) :=
  build_fuel_spec (sizeOf data + 1) data path depth (Nat.lt_succ_self _)
